import Mathlib

/-!
Verification development for the DocIntelAI request-orchestration pipeline.

Shallow embedding of the Python source:
* `app/rag/retriever.py` — multi-query retrieval merge, dedup, diversification
* `app/rag/query_optimizer.py` — sub-query decomposition post-processing
* `app/services/groq_service.py` — fallback retrieval decision heuristic
* `app/rag/generator.py` — citation assignment
* `app/routes/chat_routes.py` — progress events and SSE stream lifecycles

External collaborators (LLM calls, vector index, transport) are abstracted
as explicit parameters: LLM outcomes become `CallOutcome` values, per-query
vector-index results become input lists, stream traffic becomes `StreamIn`
lists.  Distances (Python floats) are modelled as rationals.
-/

namespace DocIntel

/-! ### String helpers shared by several modules

Python uses substring tests (`pat in s`), whitespace tokenisation
(`s.split()`), `lower()` and `strip()`.  We model them over `List Char`
and `String`. -/

/-- `charsHavePre pat l` : `pat` is a prefix of `l` (character lists). -/
def charsHavePre : List Char → List Char → Bool
  | [], _ => true
  | _ :: _, [] => false
  | p :: ps, c :: cs => p == c && charsHavePre ps cs

/-- `charsContain pat l` : `pat` occurs as a contiguous sublist of `l`
(Python `pat in s`). -/
def charsContain (pat : List Char) : List Char → Bool
  | [] => pat.isEmpty
  | c :: cs => charsHavePre pat (c :: cs) || charsContain pat cs

/-- Python `pat in s` on strings. -/
def strOccursIn (pat s : String) : Bool :=
  charsContain pat.toList s.toList

/-- Split a character list at every character satisfying `p` (pieces may
be empty, like `String.split`). -/
def splitCharsAt (p : Char → Bool) (cur : List Char) : List Char → List (List Char)
  | [] => [cur.reverse]
  | x :: xs =>
    if p x then cur.reverse :: splitCharsAt p [] xs
    else splitCharsAt p (x :: cur) xs

/-- Python `s.split()` : split on whitespace runs, dropping empty pieces. -/
def pyTokens (s : String) : List String :=
  ((splitCharsAt Char.isWhitespace [] s.data).map (fun l => (⟨l⟩ : String))).filter (· ≠ "")

/-- Python `len(s.split())`. -/
def tokenCount (s : String) : Nat :=
  (pyTokens s).length

/-- Python `s.lower()` (ASCII, as in the source's inputs). -/
def strToLower (s : String) : String := ⟨s.data.map Char.toLower⟩

/-- Python `s.strip()`. -/
def strTrim (s : String) : String :=
  ⟨((s.data.dropWhile Char.isWhitespace).reverse.dropWhile Char.isWhitespace).reverse⟩

/-! ### `app/rag/retriever.py`

A retrieved chunk as used by the merge/diversification logic: the fields
the code reads are `chunk_id`, `metadata["source_document_id"]` and
`distance` (`x.get("distance", 1.0)` — possibly absent, default 1.0). -/

structure Chunk where
  chunk_id : String
  doc_id : String
  distance : Option ℚ
  deriving DecidableEq, Repr

/-- `x.get("distance", 1.0)`. -/
def distVal (c : Chunk) : ℚ := c.distance.getD 1

/-- The sort key relation used by `sort(key=lambda x: x.get("distance", 1.0))`. -/
def distLE (a b : Chunk) : Prop := distVal a ≤ distVal b

instance : DecidableRel distLE := fun a b =>
  inferInstanceAs (Decidable (distVal a ≤ distVal b))

instance : IsTotal Chunk distLE := ⟨fun a b => le_total (distVal a) (distVal b)⟩

instance : IsTrans Chunk distLE := ⟨fun _ _ _ => le_trans⟩

/-- Python's stable ascending sort by distance (insertion sort is stable). -/
def sortByDist (l : List Chunk) : List Chunk := List.insertionSort distLE l

/-- `_post_process_results`: group results by `source_document_id`,
preserving first-appearance order of documents (Python dict insertion
order) and result order inside each group. -/
def groupByDoc (results : List Chunk) : List (String × List Chunk) :=
  results.foldl (fun acc c => insertGroup acc c) []
where
  insertGroup : List (String × List Chunk) → Chunk → List (String × List Chunk)
    | [], c => [(c.doc_id, [c])]
    | (d, l) :: rest, c =>
      if d = c.doc_id then (d, l ++ [c]) :: rest
      else (d, l) :: insertGroup rest c

/-- The round-robin `while` loop of `_post_process_results`: repeatedly
visit every non-empty group in order, popping its best remaining chunk
(empty groups are dropped).  The selection order is column-major over the
groups; the source's early break at `top_k` is the `take top_k` applied
by `post_process_results`.  `fuel` bounds the number of passes; the total
number of chunks suffices. -/
def roundRobinPasses : Nat → List (List Chunk) → List Chunk
  | 0, _ => []
  | fuel + 1, gs =>
    let ne := gs.filter (fun g => !g.isEmpty)
    if ne.isEmpty then []
    else ne.filterMap List.head? ++ roundRobinPasses fuel (ne.map List.tail)

/-- `_post_process_results(query, results, top_k)` (the `query` argument is
unused by the code).  If `len(results) <= top_k` the raw results pass
through unchanged; otherwise the chunks are grouped by document, each group
sorted ascending by distance, selected round-robin up to `top_k`, and the
selection re-sorted ascending by distance. -/
def post_process_results (results : List Chunk) (topK : Nat) : List Chunk :=
  if results.length ≤ topK then results
  else
    let groups := (groupByDoc results).map fun p => sortByDist p.2
    let selected := (roundRobinPasses results.length groups).take topK
    (sortByDist selected).take topK

/-- The merge loop of `retrieve_relevant_chunks_for_multiple_queries`:
walk the concatenated per-query results, keeping a chunk only if its
`chunk_id` has not been seen yet (first occurrence wins). -/
def dedupByIdFrom (seen : List String) : List Chunk → List Chunk
  | [] => []
  | c :: cs =>
    if c.chunk_id ∈ seen then dedupByIdFrom seen cs
    else c :: dedupByIdFrom (c.chunk_id :: seen) cs

/-- `dynamic_limit = min(max(top_k * 2, len(queries) * 5), 30)`. -/
def dynamicLimit (topK numQueries : Nat) : Nat :=
  min (max (topK * 2) (numQueries * 5)) 30

/-- Concatenation, in per-query order, of the post-processed per-query
result lists (what `asyncio.gather` hands to the merge loop). -/
def processedJoin (perQuery : List (List Chunk)) (topK : Nat) : List Chunk :=
  (perQuery.map (post_process_results · topK)).flatten

/-- The deduplicated merge (`merged_results` right after the merge loop). -/
def mergedChunks (perQuery : List (List Chunk)) (topK : Nat) : List Chunk :=
  dedupByIdFrom [] (processedJoin perQuery topK)

/-- `retrieve_relevant_chunks_for_multiple_queries`, with the per-query
vector-index responses supplied as `perQuery` (one raw result list per
sub-query; each passes through `_post_process_results` inside
`retrieve_relevant_chunks_async`).  After merging with dedup, the list is
sorted by distance and truncated only when it exceeds `dynamic_limit`. -/
def retrieve_relevant_chunks_for_multiple_queries
    (perQuery : List (List Chunk)) (topK : Nat) : List Chunk :=
  if (mergedChunks perQuery topK).length > dynamicLimit topK perQuery.length then
    (sortByDist (mergedChunks perQuery topK)).take (dynamicLimit topK perQuery.length)
  else mergedChunks perQuery topK

/-! ### `app/rag/query_optimizer.py` — `split_query_into_subqueries`

The two external LLM calls are abstracted as `CallOutcome` parameters:
the structured (JSON) call is summarised by the list of strings the
extraction step (`result["sub_queries"]` / `result["subQueries"]` /
top-level array) obtains from it — a malformed or key-less response gives
the empty list, which the code treats exactly like an empty array — and
the plain-text fallback call by its raw response text.  `failed` means
the call raised. -/

structure ChatMsg where
  role : String
  content : String
  deriving DecidableEq, Repr

/-- `next((msg["content"] for msg in reversed(chat_history) if msg["role"] == "user"), None)`. -/
def lastUserContent (hist : List ChatMsg) : Option String :=
  (hist.reverse.find? (fun m => m.role == "user")).map ChatMsg.content

/-- Outcome of an external LLM call: a value, or an exception. -/
inductive CallOutcome (α : Type) where
  | ok (val : α)
  | failed
  deriving DecidableEq, Repr

/-- `is_short_query = len(query.split()) <= 5`. -/
def isShortQuery (q : String) : Bool := tokenCount q ≤ 5

/-- The `if len(sub_queries) < 2:` augmentation block of
`split_query_into_subqueries`: for short follow-ups with history, build
three contextual variations from the last user turn (keyword-dependent);
otherwise append `"Information about {query}"` when the single sub-query
equals the original query case-insensitively. -/
def augmentSubQueries (query : String) (hist : List ChatMsg)
    (subqs : List String) : List String :=
  if subqs.length < 2 then
    if isShortQuery query && !hist.isEmpty then
      match lastUserContent hist with
      | some luq =>
        if luq ≠ "" then
          if strOccursIn "by region" (strToLower query) || strOccursIn "region" (strToLower query) then
            [luq ++ " by geographic region", luq ++ " by region breakdown",
             "regional data for " ++ luq]
          else if strOccursIn "by product" (strToLower query) || strOccursIn "product" (strToLower query) then
            [luq ++ " by product category", luq ++ " product breakdown",
             "product-specific data for " ++ luq]
          else if strOccursIn "year" (strToLower query) || strOccursIn "annual" (strToLower query) then
            [luq ++ " annual trends", luq ++ " year over year",
             "yearly comparison of " ++ luq]
          else
            [luq ++ " " ++ query, query ++ " in context of " ++ luq,
             "information about " ++ luq ++ " regarding " ++ query]
        else subqs
      | none => subqs
    else if subqs.length = 1 && strTrim (strToLower (subqs.headD "")) == strTrim (strToLower query) then
      subqs ++ ["Information about " ++ strTrim query]
    else if subqs.length = 0 then
      [query, "Information about " ++ strTrim query]
    else subqs
  else subqs

/-- The `# Remove duplicates while preserving order` loop: keep a
sub-query only if it is non-empty (`if sq`) and its lowercase form has
not been seen. -/
def dedupCaseInsensitive (seen : List String) : List String → List String
  | [] => []
  | sq :: rest =>
    if sq ≠ "" ∧ strToLower sq ∉ seen then
      sq :: dedupCaseInsensitive (strToLower sq :: seen) rest
    else dedupCaseInsensitive seen rest

/-- The tail of `split_query_into_subqueries` from the point where a
sub-query list has been extracted: empty/malformed list ⇒ `[query]`;
otherwise augment, dedup case-insensitively, and fall back to `[query]`
if nothing survives. -/
def finalizeSubQueries (query : String) (hist : List ChatMsg)
    (subqs : List String) : List String :=
  if subqs.isEmpty then [query]
  else
    let uniq := dedupCaseInsensitive [] (augmentSubQueries query hist subqs)
    if uniq.isEmpty then [query] else uniq

/-- `[line.strip() for line in response_text.split('\n') if line.strip()]`. -/
def parseLines (txt : String) : List String :=
  ((splitCharsAt (· == '\n') [] txt.data).map (fun l => strTrim ⟨l⟩)).filter (· ≠ "")

/-- `split_query_into_subqueries(query, chat_history)`.  If the JSON-mode
call raises, the plain-text call is attempted; if that also raises, the
handler returns `[query]`. -/
def split_query_into_subqueries (query : String) (hist : List ChatMsg)
    (jsonCall : CallOutcome (List String)) (textCall : CallOutcome String) :
    List String :=
  match jsonCall with
  | .ok subqs => finalizeSubQueries query hist subqs
  | .failed =>
    match textCall with
    | .ok txt => finalizeSubQueries query hist (parseLines txt)
    | .failed => [query]

/-- The candidate list fed to the dedup loop on each path of
`split_query_into_subqueries` (empty when the code short-circuits to
`[query]` before reaching the dedup loop). -/
def splitCandidates (query : String) (hist : List ChatMsg)
    (jsonCall : CallOutcome (List String)) (textCall : CallOutcome String) :
    List String :=
  match jsonCall with
  | .ok subqs => if subqs.isEmpty then [] else augmentSubQueries query hist subqs
  | .failed =>
    match textCall with
    | .ok txt =>
      if (parseLines txt).isEmpty then []
      else augmentSubQueries query hist (parseLines txt)
    | .failed => []

/-! ### `app/services/groq_service.py` — `GroqService._fallback_retrieval_decision` -/

structure RetrievalDecision where
  should_retrieve : Bool
  confidence : ℚ
  reasoning : String
  suggested_queries : Option (List String)
  deriving DecidableEq, Repr

/-- The follow-up scan of `_fallback_retrieval_decision`: walk history in
reverse to the most recent `"user"` message; it is a follow-up only when
the current message has ≤ 5 tokens **and** that previous query has > 5
tokens, in which case the two are concatenated.  Returns
`(is_follow_up, expanded_query)`. -/
def fallbackFollowUpExpanded (message : String) (hist : List ChatMsg) :
    Bool × String :=
  match (hist.reverse.find? (fun m => m.role == "user")) with
  | some prev =>
    if tokenCount message ≤ 5 ∧ tokenCount prev.content > 5 then
      (true, prev.content ++ " " ++ message)
    else (false, message)
  | none => (false, message)

/-- `question_indicators` from the source. -/
def questionIndicators : List String :=
  ["?", "what", "how", "when", "where", "why", "who", "which", "tell me", "explain"]

/-- `any(indicator in message_lower for indicator in question_indicators)`. -/
def containsQuestionIndicator (s : String) : Bool :=
  questionIndicators.any (fun ind => strOccursIn ind (strToLower s))

/-- `GroqService._fallback_retrieval_decision(message, conversation_history)`. -/
def fallback_retrieval_decision (message : String) (hist : List ChatMsg) :
    RetrievalDecision :=
  let fe := fallbackFollowUpExpanded message hist
  let is_follow_up := fe.1
  let expanded_query := fe.2
  let contains_question := containsQuestionIndicator expanded_query
  let is_long_enough := tokenCount message ≥ 3 || is_follow_up
  let should_retrieve := contains_question && is_long_enough
  { should_retrieve := should_retrieve
    confidence := if contains_question then 7/10 else 1/2
    reasoning := "Fallback decision based on question indicators and message length" ++
      (if is_follow_up then " (recognized as follow-up question)" else "")
    suggested_queries :=
      if should_retrieve then
        if is_follow_up then some [expanded_query] else some [message]
      else none }

/-- Claim C7's follow-up condition, as the claim words it: "at most 5
tokens and the history is non-empty" (written from the spec's words, to
be compared with `fallbackFollowUpExpanded`). -/
def claimedFollowUp (message : String) (hist : List ChatMsg) : Bool :=
  (tokenCount message ≤ 5) && !hist.isEmpty

/-- Claim C7's expanded query: the most recent user turn concatenated with
the query when the claimed follow-up condition holds (spec words). -/
def claimedExpandedQuery (message : String) (hist : List ChatMsg) : String :=
  if claimedFollowUp message hist then
    ((lastUserContent hist).getD "") ++ " " ++ message
  else message

/-- Claim C7's `should_retrieve` formula (spec words):
`contains_question_indicator AND (token_count >= 3 OR is_follow_up)`. -/
def claimedShouldRetrieve (message : String) (hist : List ChatMsg) : Bool :=
  containsQuestionIndicator (claimedExpandedQuery message hist) &&
    (tokenCount message ≥ 3 || claimedFollowUp message hist)

/-- Amended follow-up condition: the most recent user turn must exist and
have more than 5 tokens, and the message at most 5 tokens. -/
def amendedFollowUp (message : String) (hist : List ChatMsg) : Bool :=
  match lastUserContent hist with
  | some prev => (tokenCount message ≤ 5) && (tokenCount prev > 5)
  | none => false

/-- Amended expanded query: previous user turn prepended exactly when
`amendedFollowUp` holds. -/
def amendedExpandedQuery (message : String) (hist : List ChatMsg) : String :=
  if amendedFollowUp message hist then
    ((lastUserContent hist).getD "") ++ " " ++ message
  else message

/-! ### `app/rag/generator.py` — citation assignment

`_prepare_context_and_citations` walks the chunks with `enumerate`,
assigning marker `f"[{i+1}]"` to the i-th chunk and inserting its
citation record under that key; since every key is fresh, iterating the
dict in `generate_answer` yields the records in enumeration order. -/

structure RChunk where
  chunk_id : String
  text : String
  source_document_id : String
  source_document_name : String
  page_number : Option Nat
  distance : Option ℚ
  deriving DecidableEq, Repr

structure Citation where
  citation_id : String
  chunk_id : String
  document_id : String
  document_name : String
  page_number : Option Nat
  text_snippet : String
  relevance_score : ℚ
  deriving DecidableEq, Repr

/-- `f"[{i+1}]"` with `k = i+1`. -/
def citationMarker (k : Nat) : String := "[" ++ Nat.repr k ++ "]"

/-- The citation record stored for the i-th chunk (0-based `i`). -/
def mkCitation (i : Nat) (c : RChunk) : Citation :=
  { citation_id := citationMarker (i + 1)
    chunk_id := c.chunk_id
    document_id := c.source_document_id
    document_name := c.source_document_name
    page_number := c.page_number
    text_snippet := if c.text.length > 200 then c.text.take 200 ++ "..." else c.text
    relevance_score := 1 - c.distance.getD 0 }

/-- The `for i, chunk in enumerate(retrieved_chunks)` loop, starting the
enumeration at `i`. -/
def citationsFrom (i : Nat) : List RChunk → List Citation
  | [] => []
  | c :: cs => mkCitation i c :: citationsFrom (i + 1) cs

/-- The `citations` list returned by `generate_answer`: **all** chunks'
citation records, in enumeration order. -/
def generate_answer_citations (chunks : List RChunk) : List Citation :=
  citationsFrom 0 chunks

/-! ### `app/routes/chat_routes.py` — progress events -/

structure UpdateEvent where
  stage : String
  message : String
  isCompleted : Bool
  progressPercentage : Nat
  errorDetail : Bool
  deriving DecidableEq, Repr

/-- The `stages` list of `send_realtime_update`. -/
def progressStages : List String :=
  ["analyzing_query", "deciding_retrieval", "splitting_query",
   "retrieving_documents", "generating_answer", "complete"]

/-- The percentage computation of `send_realtime_update`: index lookup in
`stages` (`ValueError` ⇒ 0), then `complete ⇒ 100`,
`completed ⇒ min(100, (idx+1)*20)`, else `min(100, idx*20+10)`. -/
def stagePercentage (stage : String) (isCompleted : Bool) : Nat :=
  match progressStages.findIdx? (· == stage) with
  | some i =>
    if stage = "complete" then 100
    else if isCompleted then min 100 ((i + 1) * 20)
    else min 100 (i * 20 + 10)
  | none => 0

/-- `send_realtime_update(queue, stage, message, details, is_completed)`:
the enqueued update payload (`errorDetail` models `details.get("error")`). -/
def mkRealtimeUpdate (stage message : String) (isCompleted errorDetail : Bool) :
    UpdateEvent :=
  { stage := stage
    message := message
    isCompleted := isCompleted
    progressPercentage := stagePercentage stage isCompleted
    errorDetail := errorDetail }

/-- The stage-name mapping inside the `send_message` timer callback
(`if "retrieval_decision" in stage: ... else` chain; default
`"analyzing_query"`). -/
def mapCallbackStage (stage : String) : String :=
  if strOccursIn "retrieval_decision" stage then "deciding_retrieval"
  else if strOccursIn "query_splitting" stage then "splitting_query"
  else if strOccursIn "retrieve_chunks" stage || strOccursIn "chroma_query" stage then
    "retrieving_documents"
  else if strOccursIn "generate_answer" stage then "generating_answer"
  else "analyzing_query"

/-- The five-entry `stages` list used inside the timer callback. -/
def callbackStages : List String :=
  ["analyzing_query", "deciding_retrieval", "splitting_query",
   "retrieving_documents", "generating_answer"]

/-- The updates emitted by one invocation of the `send_message` timer
callback with `Timer`-produced stage name `stage` for operation
`operation`: `is_completed = "_completed" in stage`; on completion the
mapped stage is marked completed and the next pipeline stage is started
(message texts abbreviated — no claim depends on them). -/
def timerCallbackEvents (stage operation : String) : List UpdateEvent :=
  let update_stage := mapCallbackStage stage
  let is_completed := strOccursIn "_completed" stage
  if is_completed then
    let first := mkRealtimeUpdate update_stage (operation ++ " completed") true false
    match callbackStages.findIdx? (· == update_stage) with
    | some i =>
      if i < callbackStages.length - 1 then
        [first, mkRealtimeUpdate (callbackStages.getD (i + 1) "") "Starting next stage" false false]
      else [first]
    | none => [first]
  else
    [mkRealtimeUpdate update_stage (operation ++ " started") false false]

/-- The sub-queries summary event that `send_message` puts on the queue
directly (not via `send_realtime_update`), with its hard-coded
`"progressPercentage": 40`. -/
def splittingQueryDirectUpdate : UpdateEvent :=
  { stage := "splitting_query"
    message := "Split query into sub-queries"
    isCompleted := true
    progressPercentage := 40
    errorDetail := false }

/-- The deterministic prefix of the update stream emitted by a streaming
`send_message` request on the retrieval path (`use_retrieval` not `False`,
decision `should_retrieve = True`), in source order: the initial
`analyzing_query` update; the `deciding_retrieval` start; the
`Timer("Retrieval Decision")` enter/exit callbacks (whose stage names
`"retrieval decision_started"/"_completed"` contain a space); the
decision-completed update; the `splitting_query` start; the
`Timer("Query Splitting")` enter/exit callbacks; and the direct
sub-queries summary event.  Timing-dependent background updates are
excluded (none occur before this point). -/
def sendMessagePrefix : List UpdateEvent :=
  [mkRealtimeUpdate "analyzing_query" "Analyzing your question..." false false] ++
  [mkRealtimeUpdate "deciding_retrieval" "Determining if document retrieval is needed..." false false] ++
  timerCallbackEvents "retrieval decision_started" "Retrieval Decision" ++
  timerCallbackEvents "retrieval decision_completed" "Retrieval Decision" ++
  [mkRealtimeUpdate "deciding_retrieval" "Using document retrieval" true false] ++
  [mkRealtimeUpdate "splitting_query" "Breaking down your question into searchable components..." false false] ++
  timerCallbackEvents "query splitting_started" "Query Splitting" ++
  timerCallbackEvents "query splitting_completed" "Query Splitting" ++
  [splittingQueryDirectUpdate]

/-- Claim C2's percentage formula, from the spec's words: index among the
five pipeline stages, `(index+1)*20` when completed, `index*20+10` when
in progress, `100` for `complete`. -/
def claimedStagePercentage (stage : String) (isCompleted : Bool) : Nat :=
  if stage = "complete" then 100
  else
    match callbackStages.findIdx? (· == stage) with
    | some i => if isCompleted then (i + 1) * 20 else i * 20 + 10
    | none => 0

/-- `a :: l` is non-decreasing. -/
def natsNonDecreasing : List Nat → Bool
  | [] => true
  | [_] => true
  | a :: b :: t => a ≤ b && natsNonDecreasing (b :: t)

/-- The terminal update emitted by `send_message`'s `except Exception`
handler: `send_realtime_update(queue, "complete", f"Error: {e}",
{"error": True}, True)`. -/
def errorTerminalUpdate (errMsg : String) : UpdateEvent :=
  mkRealtimeUpdate "complete" ("Error: " ++ errMsg) true true

/-- The terminal update emitted on success:
`send_realtime_update(queue, "complete", "Response generated successfully", {}, True)`. -/
def successTerminalUpdate : UpdateEvent :=
  mkRealtimeUpdate "complete" "Response generated successfully" true false

/-! ### `app/routes/chat_routes.py` — SSE stream lifecycle

`stream_events` and `realtime_stream_events` drain a per-request queue
registered in `session_queues`.  We model one run of either generator as
a fold over a trace of inputs: a queue item (`evt`), an
`asyncio.TimeoutError` while waiting (`timeout`, which yields a
keepalive/heartbeat), or a client disconnect (`GeneratorExit`).  The
registry is the key set of `session_queues`.  If the trace ends without a
terminal event or disconnect, the generator is still suspended and no
cleanup has run. -/

structure QEvent where
  etype : String
  stage : String
  deriving DecidableEq, Repr

/-- `data.get("type") == "processing_update" and data.get("stage") == "complete"`. -/
def isTerminalEvent (e : QEvent) : Bool :=
  e.etype == "processing_update" && e.stage == "complete"

inductive StreamIn where
  | evt (e : QEvent)
  | timeout
  | disconnect
  deriving DecidableEq, Repr

inductive OutFrame where
  | connection
  | data (e : QEvent)
  | heartbeat
  | closing
  | errFrame
  deriving DecidableEq, Repr

/-- An input that neither terminates the loop nor closes the generator. -/
def keepsStreaming : StreamIn → Bool
  | .evt e => !isTerminalEvent e
  | .timeout => true
  | .disconnect => false

/-- The `while True` loop of `stream_events` plus its exit paths.  On a
terminal event the loop breaks and the generator returns — only the
consumer task is cancelled, the registry entry is **not** deleted (the
deletion sits solely in the `except GeneratorExit` handler).  On
disconnect (`GeneratorExit`) the entry is deleted.  A `timeout` yields a
keepalive and breaks only when the entry is already gone. -/
def streamEventsLoop (registry : List String) (qid : String) :
    List StreamIn → List OutFrame × List String
  | [] => ([], registry)
  | .evt e :: rest =>
    if isTerminalEvent e then ([.data e, .closing], registry)
    else
      let r := streamEventsLoop registry qid rest
      (.data e :: r.1, r.2)
  | .timeout :: rest =>
    if qid ∈ registry then
      let r := streamEventsLoop registry qid rest
      (.heartbeat :: r.1, r.2)
    else ([.heartbeat], registry)
  | .disconnect :: _ => ([], registry.erase qid)

/-- `stream_events(queue_id)`: early `return` when the queue is missing;
otherwise the connection/ready frames followed by the loop. -/
def stream_events (registry : List String) (qid : String)
    (inputs : List StreamIn) : List OutFrame × List String :=
  if qid ∈ registry then
    let r := streamEventsLoop registry qid inputs
    (.connection :: .connection :: r.1, r.2)
  else ([], registry)

/-- The `while True` loop of `realtime_stream_events` plus its exit
paths.  Identical traffic handling, but every way out of the generator —
terminal event, timeout-break, or `GeneratorExit` — runs the function's
`finally`, which deletes the registry entry. -/
def realtimeLoop (registry : List String) (qid : String) :
    List StreamIn → List OutFrame × List String
  | [] => ([], registry)
  | .evt e :: rest =>
    if isTerminalEvent e then ([.data e, .closing], registry.erase qid)
    else
      let r := realtimeLoop registry qid rest
      (.data e :: r.1, r.2)
  | .timeout :: rest =>
    if qid ∈ registry then
      let r := realtimeLoop registry qid rest
      (.heartbeat :: r.1, r.2)
    else ([.heartbeat], registry.erase qid)
  | .disconnect :: _ => ([], registry.erase qid)

/-- `realtime_stream_events(queue_id)`: an error frame when the queue is
missing; otherwise connection/test frames followed by the loop. -/
def realtime_stream_events (registry : List String) (qid : String)
    (inputs : List StreamIn) : List OutFrame × List String :=
  if qid ∈ registry then
    let r := realtimeLoop registry qid inputs
    (.connection :: .connection :: .connection :: r.1, r.2)
  else ([.errFrame], registry)

/-- The terminal queue item produced by `send_message`'s completion (and
error) updates: `type "processing_update"`, `stage "complete"`. -/
def completeQEvent : QEvent := ⟨"processing_update", "complete"⟩

/-- Concrete per-query result for the diversity scenario of claim C4:
ten chunks spread over the three documents `A`, `B`, `C`, with known
ascending distances; the three closest chunks all come from `A`. -/
def exDiversityList : List Chunk :=
  [⟨"c1", "A", some 1⟩, ⟨"c2", "A", some 2⟩, ⟨"c3", "A", some 3⟩,
   ⟨"c4", "B", some 4⟩, ⟨"c5", "B", some 5⟩, ⟨"c6", "B", some 6⟩,
   ⟨"c7", "B", some 7⟩, ⟨"c8", "C", some 8⟩, ⟨"c9", "C", some 9⟩,
   ⟨"c10", "C", some 10⟩]

/-- Thirty-one singleton per-query results with distinct chunk ids, used
to exercise the truncating branch of the merge (`31 > dynamic_limit = 30`
for `top_k = 1`). -/
def exManyQueries : List (List Chunk) :=
  (List.range 31).map fun i => [⟨Nat.repr i, "D", some (i : ℚ)⟩]

/-- Decimal value of a character list (inverse of `Nat.toDigits 10`),
used to show citation markers are pairwise distinct. -/
def digitVal (c : Char) : Nat := c.toNat - 48

/-- Fold a digit list into the number it denotes. -/
def decodeDecimal (l : List Char) : Nat :=
  l.foldl (fun a c => a * 10 + digitVal c) 0

/-! ## Theorems -/

/-! ### Dedup-by-chunk-id lemmas (merge step of the retriever) -/

theorem dedupByIdFrom_mem {seen : List String} {l : List Chunk} {c : Chunk}
    (h : c ∈ dedupByIdFrom seen l) : c ∈ l := by
  induction l generalizing seen with
  | nil => simp [dedupByIdFrom] at h
  | cons x xs ih =>
    by_cases hx : x.chunk_id ∈ seen
    · simp only [dedupByIdFrom, if_pos hx] at h
      exact List.mem_cons_of_mem _ (ih h)
    · simp only [dedupByIdFrom, if_neg hx, List.mem_cons] at h
      rcases h with h | h
      · exact h ▸ List.mem_cons_self _ _
      · exact List.mem_cons_of_mem _ (ih h)

theorem dedupByIdFrom_not_seen {seen : List String} {l : List Chunk} {c : Chunk}
    (h : c ∈ dedupByIdFrom seen l) : c.chunk_id ∉ seen := by
  induction l generalizing seen with
  | nil => simp [dedupByIdFrom] at h
  | cons x xs ih =>
    by_cases hx : x.chunk_id ∈ seen
    · simp only [dedupByIdFrom, if_pos hx] at h
      exact ih h
    · simp only [dedupByIdFrom, if_neg hx, List.mem_cons] at h
      rcases h with rfl | h
      · exact hx
      · have := ih h
        intro hc
        exact this (List.mem_cons_of_mem _ hc)

theorem dedupByIdFrom_nodup (seen : List String) (l : List Chunk) :
    ((dedupByIdFrom seen l).map Chunk.chunk_id).Nodup := by
  induction l generalizing seen with
  | nil => simp [dedupByIdFrom]
  | cons x xs ih =>
    by_cases hx : x.chunk_id ∈ seen
    · simpa only [dedupByIdFrom, if_pos hx] using ih seen
    · simp only [dedupByIdFrom, if_neg hx, List.map_cons, List.nodup_cons]
      refine ⟨?_, ih _⟩
      intro hmem
      rcases List.mem_map.mp hmem with ⟨c, hc, hcid⟩
      exact dedupByIdFrom_not_seen hc (hcid ▸ List.mem_cons_self _ _)

theorem dedupByIdFrom_find {seen : List String} {l : List Chunk} {c : Chunk}
    (h : c ∈ dedupByIdFrom seen l) :
    l.find? (fun x => x.chunk_id == c.chunk_id) = some c := by
  induction l generalizing seen with
  | nil => simp [dedupByIdFrom] at h
  | cons x xs ih =>
    by_cases hx : x.chunk_id ∈ seen
    · simp only [dedupByIdFrom, if_pos hx] at h
      have hne : c.chunk_id ≠ x.chunk_id := by
        intro he
        exact dedupByIdFrom_not_seen h (he ▸ hx)
      rw [List.find?_cons]
      split
      · next heq => exact absurd (eq_of_beq heq).symm hne
      · exact ih h
    · simp only [dedupByIdFrom, if_neg hx, List.mem_cons] at h
      rcases h with rfl | h
      · rw [List.find?_cons]
        split
        · rfl
        · next hne => simp at hne
      · have hcs : c.chunk_id ∉ x.chunk_id :: seen := dedupByIdFrom_not_seen h
        have hne : x.chunk_id ≠ c.chunk_id := by
          intro he
          exact hcs (he ▸ List.mem_cons_self _ _)
        rw [List.find?_cons]
        split
        · next heq => exact absurd (eq_of_beq heq) hne
        · exact ih h

/-- **C1** (confirmed).  For every call to
`retrieve_relevant_chunks_for_multiple_queries` — any per-query result
lists, any `top_k` — the returned merged list contains no two entries with
the same `chunk_id`, and every returned chunk is the *first* occurrence of
its `chunk_id` in the per-query concatenation order. -/
theorem multi_query_merge_nodup_first_wins
    (perQuery : List (List Chunk)) (topK : Nat) :
    ((retrieve_relevant_chunks_for_multiple_queries perQuery topK).map Chunk.chunk_id).Nodup ∧
    ∀ c ∈ retrieve_relevant_chunks_for_multiple_queries perQuery topK,
      (processedJoin perQuery topK).find? (fun x => x.chunk_id == c.chunk_id) = some c := by
  unfold retrieve_relevant_chunks_for_multiple_queries
  by_cases hlen : (mergedChunks perQuery topK).length > dynamicLimit topK perQuery.length
  · simp only [if_pos hlen]
    constructor
    · have hperm :
          List.Perm ((sortByDist (mergedChunks perQuery topK)).map Chunk.chunk_id)
            ((mergedChunks perQuery topK).map Chunk.chunk_id) :=
        (List.perm_insertionSort distLE (mergedChunks perQuery topK)).map _
      have hnd : ((sortByDist (mergedChunks perQuery topK)).map Chunk.chunk_id).Nodup :=
        hperm.nodup_iff.mpr (dedupByIdFrom_nodup [] _)
      exact hnd.sublist ((List.take_sublist _ _).map _)
    · intro c hc
      have hc1 : c ∈ sortByDist (mergedChunks perQuery topK) := List.mem_of_mem_take hc
      have hc2 : c ∈ mergedChunks perQuery topK :=
        (List.perm_insertionSort distLE (mergedChunks perQuery topK)).mem_iff.mp hc1
      exact dedupByIdFrom_find hc2
  · simp only [if_neg hlen]
    exact ⟨dedupByIdFrom_nodup [] _, fun c hc => dedupByIdFrom_find hc⟩

/-- Witness for C1 at a concrete input: two sub-queries sharing one chunk
id; the merge keeps the first occurrence. -/
theorem multi_query_merge_nodup_first_wins_witness :
    ((retrieve_relevant_chunks_for_multiple_queries
        [[⟨"c1", "A", some 3⟩], [⟨"c1", "B", some 1⟩, ⟨"c2", "B", some 2⟩]] 10).map
      Chunk.chunk_id).Nodup ∧
    (processedJoin [[⟨"c1", "A", some 3⟩], [⟨"c1", "B", some 1⟩, ⟨"c2", "B", some 2⟩]] 10).find?
      (fun x => x.chunk_id == Chunk.chunk_id ⟨"c1", "A", some 3⟩) = some ⟨"c1", "A", some 3⟩ :=
  ⟨(multi_query_merge_nodup_first_wins _ 10).1,
   (multi_query_merge_nodup_first_wins _ 10).2 ⟨"c1", "A", some 3⟩ (by decide)⟩

/-! ### C4 / C5 — merge cap, ordering and (absent) merge-level round robin -/

theorem retrieve_multi_length_le (perQuery : List (List Chunk)) (topK : Nat) :
    (retrieve_relevant_chunks_for_multiple_queries perQuery topK).length ≤
      dynamicLimit topK perQuery.length := by
  unfold retrieve_relevant_chunks_for_multiple_queries
  by_cases hlen : (mergedChunks perQuery topK).length > dynamicLimit topK perQuery.length
  · simp only [if_pos hlen, List.length_take]
    exact min_le_left _ _
  · simp only [if_neg hlen]
    exact Nat.le_of_not_lt hlen

/-- **C4 — counterexample.**  Three sub-queries, `top_k = 10`, each
per-query fetch returning the same ten chunks spread over documents
`A`, `B`, `C` with known distances.  `dynamic_limit` is indeed 20 and the
merged output has at most 20 unique chunks, but the first three chunks of
the output are all from document `A`: no round-robin first pass across
document groups happens at the merge level, refuting the claim. -/
theorem multi_query_diversity_counterexample :
    dynamicLimit 10 3 = 20 ∧
    retrieve_relevant_chunks_for_multiple_queries
      [exDiversityList, exDiversityList, exDiversityList] 10 = exDiversityList ∧
    ((retrieve_relevant_chunks_for_multiple_queries
        [exDiversityList, exDiversityList, exDiversityList] 10).take 3).map Chunk.doc_id
      = ["A", "A", "A"] ∧
    "B" ∉ ((retrieve_relevant_chunks_for_multiple_queries
        [exDiversityList, exDiversityList, exDiversityList] 10).take 3).map Chunk.doc_id := by
  refine ⟨rfl, by decide, by decide, by decide⟩

/-- **C4** (corrected).  With 3 sub-queries and `top_k = 10` the final cap
is `dynamic_limit = min(max(top_k*2, numSubQueries*5), 30) = 20` and the
merged output has at most 20 unique chunks; however the first 3 chunks
are *not* guaranteed to cover the three source documents — the merge
applies no round-robin pass (per-query round robin runs only inside
`_post_process_results` when a query's raw results exceed `top_k`). -/
theorem multi_query_dynamic_limit_cap (perQuery : List (List Chunk))
    (h : perQuery.length = 3) :
    dynamicLimit 10 3 = 20 ∧
    (retrieve_relevant_chunks_for_multiple_queries perQuery 10).length ≤ 20 := by
  refine ⟨rfl, ?_⟩
  have := retrieve_multi_length_le perQuery 10
  rwa [h] at this

/-- Witness for the amended C4 at the concrete diversity scenario. -/
theorem multi_query_dynamic_limit_cap_witness :
    dynamicLimit 10 3 = 20 ∧
    (retrieve_relevant_chunks_for_multiple_queries
      [exDiversityList, exDiversityList, exDiversityList] 10).length ≤ 20 :=
  multi_query_dynamic_limit_cap [exDiversityList, exDiversityList, exDiversityList] rfl

/-- **C5 — counterexample.**  Two sub-queries returning one chunk each,
`top_k = 10`: the merged result keeps per-query concatenation order
(2 ≤ dynamic_limit, so no sort happens) and is *not* ascending by
distance, refuting "the returned list is sorted ascending by distance". -/
theorem merge_sorted_counterexample :
    retrieve_relevant_chunks_for_multiple_queries
        [[⟨"a", "D1", some 5⟩], [⟨"b", "D2", some 1⟩]] 10
      = [⟨"a", "D1", some 5⟩, ⟨"b", "D2", some 1⟩] ∧
    ¬ List.Sorted distLE (retrieve_relevant_chunks_for_multiple_queries
        [[⟨"a", "D1", some 5⟩], [⟨"b", "D2", some 1⟩]] 10) := by
  constructor
  · decide
  · intro h
    have h1 : retrieve_relevant_chunks_for_multiple_queries
        [[⟨"a", "D1", some 5⟩], [⟨"b", "D2", some 1⟩]] 10
        = [⟨"a", "D1", some 5⟩, ⟨"b", "D2", some 1⟩] := by decide
    rw [h1, List.sorted_cons] at h
    have := h.1 ⟨"b", "D2", some 1⟩ (by decide)
    simp only [distLE, distVal] at this
    norm_num at this

/-- **C5** (corrected).  The merge output is sorted ascending by distance
only when the number of distinct merged chunks exceeds `dynamic_limit`
(in which case it is truncated to exactly `dynamic_limit` entries); when
the distinct chunks fit within the limit they all pass through — but in
per-query concatenation order, not re-sorted. -/
theorem merge_sort_only_when_truncating (perQuery : List (List Chunk)) (topK : Nat) :
    ((mergedChunks perQuery topK).length ≤ dynamicLimit topK perQuery.length →
      retrieve_relevant_chunks_for_multiple_queries perQuery topK =
        mergedChunks perQuery topK) ∧
    (dynamicLimit topK perQuery.length < (mergedChunks perQuery topK).length →
      List.Sorted distLE (retrieve_relevant_chunks_for_multiple_queries perQuery topK) ∧
      (retrieve_relevant_chunks_for_multiple_queries perQuery topK).length =
        dynamicLimit topK perQuery.length) := by
  constructor
  · intro hle
    unfold retrieve_relevant_chunks_for_multiple_queries
    simp only [if_neg (Nat.not_lt.mpr hle)]
  · intro hgt
    unfold retrieve_relevant_chunks_for_multiple_queries
    simp only [if_pos hgt]
    constructor
    · exact (List.sorted_insertionSort distLE _).sublist (List.take_sublist _ _)
    · rw [List.length_take, sortByDist, (List.perm_insertionSort distLE _).length_eq]
      exact min_eq_left hgt.le

/-- Witness for the amended C5: the pass-through branch on the two-chunk
scenario, and the sorted truncating branch on 31 single-chunk queries
with `top_k = 1` (`dynamic_limit = 30 < 31` merged chunks). -/
theorem merge_sort_only_when_truncating_witness :
    (retrieve_relevant_chunks_for_multiple_queries
        [[⟨"a", "D1", some 5⟩], [⟨"b", "D2", some 1⟩]] 10
      = mergedChunks [[⟨"a", "D1", some 5⟩], [⟨"b", "D2", some 1⟩]] 10) ∧
    List.Sorted distLE (retrieve_relevant_chunks_for_multiple_queries exManyQueries 1) ∧
    (retrieve_relevant_chunks_for_multiple_queries exManyQueries 1).length =
      dynamicLimit 1 exManyQueries.length :=
  ⟨(merge_sort_only_when_truncating _ 10).1 (by decide),
   ((merge_sort_only_when_truncating exManyQueries 1).2 (by decide)).1,
   ((merge_sort_only_when_truncating exManyQueries 1).2 (by decide)).2⟩

/-! ### C3 — decomposition double-failure fallback -/

/-- **C3 — counterexample.**  When both the structured call and the
plain-text call raise, `split_query_into_subqueries("What is our Q3
revenue?", [])` returns the *singleton* `["What is our Q3 revenue?"]`
(the `except` handler's `return [query]`), not the claimed two-element
list — falsifying the claim at this exact input. -/
theorem split_double_failure_counterexample :
    split_query_into_subqueries "What is our Q3 revenue?" [] .failed .failed
      = ["What is our Q3 revenue?"] ∧
    (["What is our Q3 revenue?"] : List String)
      ≠ ["What is our Q3 revenue?", "Information about What is our Q3 revenue?"] := by
  exact ⟨rfl, by decide⟩

/-- **C3** (corrected).  If both reasoning calls fail by raising, the
function returns exactly `[query]` for any query and history: the
`"Information about {query}"` variant is synthesized only when a call
*succeeds* and yields a single sub-query equal to the original. -/
theorem split_double_failure_returns_query (query : String) (hist : List ChatMsg) :
    split_query_into_subqueries query hist .failed .failed = [query] := rfl

/-! ### C6 — sub-query list invariants -/

theorem dedupCaseInsensitive_sublist (l : List String) (seen : List String) :
    (dedupCaseInsensitive seen l).Sublist l := by
  induction l generalizing seen with
  | nil => simp [dedupCaseInsensitive]
  | cons x xs ih =>
    by_cases hx : x ≠ "" ∧ strToLower x ∉ seen
    · simp only [dedupCaseInsensitive, if_pos hx]
      exact (ih _).cons₂ x
    · simp only [dedupCaseInsensitive, if_neg hx]
      exact (ih seen).cons x

theorem dedupCaseInsensitive_not_seen {seen l : List String} {x : String}
    (h : x ∈ dedupCaseInsensitive seen l) : strToLower x ∉ seen := by
  induction l generalizing seen with
  | nil => simp [dedupCaseInsensitive] at h
  | cons y ys ih =>
    by_cases hy : y ≠ "" ∧ strToLower y ∉ seen
    · simp only [dedupCaseInsensitive, if_pos hy, List.mem_cons] at h
      rcases h with rfl | h
      · exact hy.2
      · have := ih h
        intro hc
        exact this (List.mem_cons_of_mem _ hc)
    · simp only [dedupCaseInsensitive, if_neg hy] at h
      exact ih h

theorem dedupCaseInsensitive_ne_empty {seen l : List String} {x : String}
    (h : x ∈ dedupCaseInsensitive seen l) : x ≠ "" := by
  induction l generalizing seen with
  | nil => simp [dedupCaseInsensitive] at h
  | cons y ys ih =>
    by_cases hy : y ≠ "" ∧ strToLower y ∉ seen
    · simp only [dedupCaseInsensitive, if_pos hy, List.mem_cons] at h
      rcases h with rfl | h
      · exact hy.1
      · exact ih h
    · simp only [dedupCaseInsensitive, if_neg hy] at h
      exact ih h

theorem dedupCaseInsensitive_nodup (l : List String) (seen : List String) :
    ((dedupCaseInsensitive seen l).map strToLower).Nodup := by
  induction l generalizing seen with
  | nil => simp [dedupCaseInsensitive]
  | cons y ys ih =>
    by_cases hy : y ≠ "" ∧ strToLower y ∉ seen
    · simp only [dedupCaseInsensitive, if_pos hy, List.map_cons, List.nodup_cons]
      refine ⟨?_, ih _⟩
      intro hmem
      rcases List.mem_map.mp hmem with ⟨z, hz, hzl⟩
      exact dedupCaseInsensitive_not_seen hz (hzl ▸ List.mem_cons_self _ _)
    · simp only [dedupCaseInsensitive, if_neg hy]
      exact ih seen

theorem dedupCaseInsensitive_find {seen l : List String} {x : String}
    (h : x ∈ dedupCaseInsensitive seen l) :
    l.find? (fun y => y ≠ "" && strToLower y == strToLower x) = some x := by
  induction l generalizing seen with
  | nil => simp [dedupCaseInsensitive] at h
  | cons y ys ih =>
    by_cases hy : y ≠ "" ∧ strToLower y ∉ seen
    · simp only [dedupCaseInsensitive, if_pos hy, List.mem_cons] at h
      rcases h with rfl | h
      · rw [List.find?_cons]
        split
        · rfl
        · next hne => simp [hy.1] at hne
      · have hns : strToLower x ∉ strToLower y :: seen := dedupCaseInsensitive_not_seen h
        have hne : strToLower y ≠ strToLower x := fun he => hns (he ▸ List.mem_cons_self _ _)
        rw [List.find?_cons]
        split
        · next heq =>
          have := (Bool.and_eq_true _ _).mp heq
          exact absurd (eq_of_beq this.2) hne
        · exact ih h
    · simp only [dedupCaseInsensitive, if_neg hy] at h
      push_neg at hy
      rw [List.find?_cons]
      by_cases hye : y = ""
      · split
        · next heq =>
          have := (Bool.and_eq_true _ _).mp heq
          simp [hye] at this
        · exact ih h
      · have hys : strToLower y ∈ seen := hy hye
        have hxs : strToLower x ∉ seen := dedupCaseInsensitive_not_seen h
        have hne : strToLower y ≠ strToLower x := fun he => hxs (he ▸ hys)
        split
        · next heq =>
          have := (Bool.and_eq_true _ _).mp heq
          exact absurd (eq_of_beq this.2) hne
        · exact ih h

/-- **C6** (confirmed).  For every query, history, and outcome of the two
external calls, `split_query_into_subqueries` returns a non-empty list
whose entries are pairwise distinct case-insensitively; the list is
either the `[query]` fallback or an order-preserving subsequence of the
candidate list in which each entry is the *first* candidate with its
lowercase form (first-seen order preserved). -/
theorem split_subqueries_invariants (query : String) (hist : List ChatMsg)
    (jsonCall : CallOutcome (List String)) (textCall : CallOutcome String) :
    split_query_into_subqueries query hist jsonCall textCall ≠ [] ∧
    ((split_query_into_subqueries query hist jsonCall textCall).map strToLower).Nodup ∧
    (split_query_into_subqueries query hist jsonCall textCall = [query] ∨
      ((split_query_into_subqueries query hist jsonCall textCall).Sublist
          (splitCandidates query hist jsonCall textCall) ∧
        ∀ x ∈ split_query_into_subqueries query hist jsonCall textCall,
          (splitCandidates query hist jsonCall textCall).find?
            (fun y => y ≠ "" && strToLower y == strToLower x) = some x)) := by
  have key : ∀ subqs : List String,
      finalizeSubQueries query hist subqs ≠ [] ∧
      ((finalizeSubQueries query hist subqs).map strToLower).Nodup ∧
      (finalizeSubQueries query hist subqs = [query] ∨
        ((finalizeSubQueries query hist subqs).Sublist
            (if subqs.isEmpty then [] else augmentSubQueries query hist subqs) ∧
          ∀ x ∈ finalizeSubQueries query hist subqs,
            (if subqs.isEmpty then ([] : List String)
             else augmentSubQueries query hist subqs).find?
              (fun y => y ≠ "" && strToLower y == strToLower x) = some x)) := by
    intro subqs
    unfold finalizeSubQueries
    by_cases hempty : subqs.isEmpty
    · simp only [if_pos hempty]
      exact ⟨by simp, by simp, by simp⟩
    · simp only [if_neg hempty]
      by_cases huniq : (dedupCaseInsensitive [] (augmentSubQueries query hist subqs)).isEmpty
      · simp only [if_pos huniq]
        exact ⟨by simp, by simp, by simp⟩
      · simp only [if_neg huniq]
        refine ⟨by simpa [List.isEmpty_iff] using huniq,
          dedupCaseInsensitive_nodup _ _, Or.inr ⟨dedupCaseInsensitive_sublist _ _, ?_⟩⟩
        intro x hx
        exact dedupCaseInsensitive_find hx
  cases jsonCall with
  | ok subqs =>
    simpa only [split_query_into_subqueries, splitCandidates] using key subqs
  | failed =>
    cases textCall with
    | ok txt =>
      simpa only [split_query_into_subqueries, splitCandidates] using key (parseLines txt)
    | failed =>
      exact ⟨by simp [split_query_into_subqueries], by simp [split_query_into_subqueries],
        Or.inl rfl⟩

/-- Witness for C6 at a concrete input: the structured call returns
`["B", "b", "c"]`; the result `["B", "c"]` is non-empty, distinct
case-insensitively, and each entry is the first candidate with its
lowercase form. -/
theorem split_subqueries_invariants_witness :
    split_query_into_subqueries "a" [] (.ok ["B", "b", "c"]) .failed ≠ [] ∧
    ((split_query_into_subqueries "a" [] (.ok ["B", "b", "c"]) .failed).map
      strToLower).Nodup ∧
    (splitCandidates "a" [] (.ok ["B", "b", "c"]) .failed).find?
      (fun y => y ≠ "" && strToLower y == strToLower "B") = some "B" := by
  refine ⟨(split_subqueries_invariants "a" [] (.ok ["B", "b", "c"]) .failed).1,
    (split_subqueries_invariants "a" [] (.ok ["B", "b", "c"]) .failed).2.1, ?_⟩
  have h := (split_subqueries_invariants "a" [] (.ok ["B", "b", "c"]) .failed).2.2
  have h2 := h.resolve_left (by decide)
  exact h2.2 "B" (by decide)

/-! ### C7 — fallback retrieval decision -/

/-- **C7 — counterexample.**  `message = "what now"` (2 tokens),
history `[user: "hi"]`: the claim's follow-up condition (≤ 5 tokens and
non-empty history) holds, and the claimed formula then yields
`should_retrieve = true`; but the code requires the previous user turn to
have more than 5 tokens, so it computes `is_follow_up = false` and
returns `should_retrieve = false`. -/
theorem fallback_decision_counterexample :
    claimedFollowUp "what now" [⟨"user", "hi"⟩] = true ∧
    claimedShouldRetrieve "what now" [⟨"user", "hi"⟩] = true ∧
    (fallbackFollowUpExpanded "what now" [⟨"user", "hi"⟩]).1 = false ∧
    (fallback_retrieval_decision "what now" [⟨"user", "hi"⟩]).should_retrieve = false := by
  decide

theorem fallbackFollowUpExpanded_eq_amended (message : String) (hist : List ChatMsg) :
    (fallbackFollowUpExpanded message hist).1 = amendedFollowUp message hist ∧
    (fallbackFollowUpExpanded message hist).2 = amendedExpandedQuery message hist := by
  cases hfind : hist.reverse.find? (fun m => m.role == "user") with
  | none =>
    simp [fallbackFollowUpExpanded, amendedFollowUp, amendedExpandedQuery,
      lastUserContent, hfind]
  | some prev =>
    by_cases hcond : tokenCount message ≤ 5 ∧ tokenCount prev.content > 5
    · simp [fallbackFollowUpExpanded, amendedFollowUp, amendedExpandedQuery,
        lastUserContent, hfind, hcond.1, hcond.2]
    · rcases Decidable.not_and_iff_or_not.mp hcond with h | h
      · simp [fallbackFollowUpExpanded, amendedFollowUp, amendedExpandedQuery,
          lastUserContent, hfind, hcond, h]
      · simp [fallbackFollowUpExpanded, amendedFollowUp, amendedExpandedQuery,
          lastUserContent, hfind, hcond, h]

/-- **C7** (corrected).  The fallback decision treats the query as a
follow-up exactly when it has at most 5 tokens **and the most recent user
turn exists and has more than 5 tokens**; in that case that turn is
concatenated with the query before evaluating.  The result satisfies
`should_retrieve = contains_question_indicator AND (token_count ≥ 3 OR
is_follow_up)` with confidence 0.7 when a question indicator is present
and 0.5 otherwise; the fallback is a total function (never raises). -/
theorem fallback_decision_amended (message : String) (hist : List ChatMsg) :
    (fallbackFollowUpExpanded message hist).1 = amendedFollowUp message hist ∧
    (fallbackFollowUpExpanded message hist).2 = amendedExpandedQuery message hist ∧
    (fallback_retrieval_decision message hist).should_retrieve =
      (containsQuestionIndicator (amendedExpandedQuery message hist) &&
        (tokenCount message ≥ 3 || amendedFollowUp message hist)) ∧
    (fallback_retrieval_decision message hist).confidence =
      (if containsQuestionIndicator (amendedExpandedQuery message hist) then 7/10 else 1/2) := by
  obtain ⟨h1, h2⟩ := fallbackFollowUpExpanded_eq_amended message hist
  refine ⟨h1, h2, ?_, ?_⟩
  · simp only [fallback_retrieval_decision, h1, h2]
  · simp only [fallback_retrieval_decision, h1, h2]

/-- Witness for the amended C7 at the counterexample input (previous user
turn has only one token, so no follow-up) and at a long-history input
(previous turn with six tokens triggers the follow-up concatenation). -/
theorem fallback_decision_amended_witness :
    (fallback_retrieval_decision "what now" [⟨"user", "hi"⟩]).should_retrieve =
      (containsQuestionIndicator (amendedExpandedQuery "what now" [⟨"user", "hi"⟩]) &&
        (tokenCount "what now" ≥ 3 || amendedFollowUp "what now" [⟨"user", "hi"⟩])) ∧
    (fallbackFollowUpExpanded "what now"
        [⟨"user", "what was our revenue in Q3 2024"⟩]).2 =
      amendedExpandedQuery "what now" [⟨"user", "what was our revenue in Q3 2024"⟩] :=
  ⟨(fallback_decision_amended "what now" [⟨"user", "hi"⟩]).2.2.1,
   (fallback_decision_amended "what now"
      [⟨"user", "what was our revenue in Q3 2024"⟩]).2.1⟩

/-! ### C2 — progress percentages -/

/-- **C2 — counterexample.**  The deterministic event prefix of a
streaming retrieval request has percentages `[10, 30, 10, 20, 30, 40, 50,
10, 20, 30, 40]` — *not* monotonically non-decreasing: the
`Timer`-callback stage names (`"retrieval decision_started"`, with a
space) never match the callback's underscore patterns, so those events
fall back to `analyzing_query` (10/20%) in the middle of later stages;
moreover the direct `splitting_query` summary event carries the
hard-coded percentage 40 although the claimed stage-index formula yields
`(2+1)*20 = 60` for a completed `splitting_query`. -/
theorem progress_percentage_counterexample :
    sendMessagePrefix.map UpdateEvent.progressPercentage
      = [10, 30, 10, 20, 30, 40, 50, 10, 20, 30, 40] ∧
    natsNonDecreasing (sendMessagePrefix.map UpdateEvent.progressPercentage) = false ∧
    splittingQueryDirectUpdate.progressPercentage = 40 ∧
    claimedStagePercentage "splitting_query" true = 60 ∧
    splittingQueryDirectUpdate.isCompleted = true := by
  decide

/-- **C2** (corrected).  Events emitted through `send_realtime_update` do
follow the stage-index formula — `(index+1)*20` when completed,
`index*20+10` when in progress over the five pipeline stages, `100` for
`complete` — but the `splitting_query` summary event is enqueued directly
with the fixed percentage 40 instead of the formula's 60, and the
timer-callback events are attributed to `analyzing_query`, so the
delivered percentage sequence of one request is *not* monotonically
non-decreasing (it begins `10, 30, 10, …`). -/
theorem progress_percentage_formula :
    stagePercentage "analyzing_query" false = 0 * 20 + 10 ∧
    stagePercentage "analyzing_query" true = (0 + 1) * 20 ∧
    stagePercentage "deciding_retrieval" false = 1 * 20 + 10 ∧
    stagePercentage "deciding_retrieval" true = (1 + 1) * 20 ∧
    stagePercentage "splitting_query" false = 2 * 20 + 10 ∧
    stagePercentage "splitting_query" true = (2 + 1) * 20 ∧
    stagePercentage "retrieving_documents" false = 3 * 20 + 10 ∧
    stagePercentage "retrieving_documents" true = (3 + 1) * 20 ∧
    stagePercentage "generating_answer" false = 4 * 20 + 10 ∧
    stagePercentage "generating_answer" true = (4 + 1) * 20 ∧
    stagePercentage "complete" false = 100 ∧
    stagePercentage "complete" true = 100 ∧
    splittingQueryDirectUpdate.progressPercentage = 40 ∧
    natsNonDecreasing (sendMessagePrefix.map UpdateEvent.progressPercentage) = false := by
  decide

/-! ### C9 — terminal event of a failed request -/

/-- **C9 — counterexample.**  The terminal event emitted by
`send_message`'s exception handler has stage `"complete"` — not
`"error"` — for any error message, falsified here at `"boom"`. -/
theorem error_event_stage_counterexample :
    (errorTerminalUpdate "boom").stage = "complete" ∧
    (errorTerminalUpdate "boom").stage ≠ "error" := by
  decide

/-- **C9** (corrected).  On an unhandled pipeline exception the terminal
event has stage `"complete"` (there is no `"error"` stage in
`send_message`), is marked completed with percentage 100, carries the
error message as `"Error: {message}"` and the detail flag
`{"error": True}` — the error flag and message, not the stage, are what
distinguish it from the success terminal event. -/
theorem error_event_is_complete_stage (errMsg : String) :
    (errorTerminalUpdate errMsg).stage = "complete" ∧
    (errorTerminalUpdate errMsg).isCompleted = true ∧
    (errorTerminalUpdate errMsg).errorDetail = true ∧
    (errorTerminalUpdate errMsg).message = "Error: " ++ errMsg ∧
    (errorTerminalUpdate errMsg).progressPercentage = 100 ∧
    successTerminalUpdate.stage = "complete" ∧
    successTerminalUpdate.errorDetail = false := by
  refine ⟨rfl, rfl, rfl, rfl, ?_, rfl, rfl⟩
  show stagePercentage "complete" true = 100
  decide

/-! ### C8 — citation markers

`f"[{i+1}]"` uses the decimal rendering `Nat.repr`; to show the markers
are pairwise distinct we build its left inverse `decodeDecimal`. -/

theorem decodeDecimal_foldl (l : List Char) :
    ∀ a : Nat, l.foldl (fun x c => x * 10 + digitVal c) a
      = a * 10 ^ l.length + decodeDecimal l := by
  induction l with
  | nil => intro a; simp [decodeDecimal]
  | cons c cs ih =>
    intro a
    have h1 : (c :: cs).foldl (fun x c => x * 10 + digitVal c) a
        = cs.foldl (fun x c => x * 10 + digitVal c) (a * 10 + digitVal c) := rfl
    have h2 : decodeDecimal (c :: cs)
        = cs.foldl (fun x c => x * 10 + digitVal c) (digitVal c) := by
      simp [decodeDecimal]
    rw [h1, ih, h2, ih]
    simp [List.length_cons, pow_succ]
    ring

theorem digitVal_digitChar : ∀ d : Nat, d < 10 → digitVal (Nat.digitChar d) = d := by
  decide

theorem decodeDecimal_toDigitsCore :
    ∀ (f n : Nat) (acc : List Char), n < f →
      decodeDecimal (Nat.toDigitsCore 10 f n acc)
        = n * 10 ^ acc.length + decodeDecimal acc := by
  intro f
  induction f with
  | zero => intro n acc h; omega
  | succ f ih =>
    intro n acc h
    have hmod : n % 10 < 10 := Nat.mod_lt _ (by norm_num)
    have hdm : 10 * (n / 10) + n % 10 = n := Nat.div_add_mod n 10
    rw [Nat.toDigitsCore]
    by_cases hdiv : n / 10 = 0
    · simp only [hdiv, if_pos]
      have : decodeDecimal (Nat.digitChar (n % 10) :: acc)
          = digitVal (Nat.digitChar (n % 10)) * 10 ^ acc.length + decodeDecimal acc := by
        have h2 : decodeDecimal (Nat.digitChar (n % 10) :: acc)
            = acc.foldl (fun x c => x * 10 + digitVal c) (digitVal (Nat.digitChar (n % 10))) := by
          simp [decodeDecimal]
        rw [h2, decodeDecimal_foldl]
      rw [this, digitVal_digitChar _ hmod]
      have hn : n % 10 = n := by omega
      rw [hn]
    · rw [if_neg hdiv]
      have hn10 : n / 10 < n := Nat.div_lt_self (by omega) (by norm_num)
      have hlt : n / 10 < f := by omega
      rw [ih (n / 10) _ hlt]
      have h2 : decodeDecimal (Nat.digitChar (n % 10) :: acc)
          = acc.foldl (fun x c => x * 10 + digitVal c) (digitVal (Nat.digitChar (n % 10))) := by
        simp [decodeDecimal]
      rw [h2, decodeDecimal_foldl, digitVal_digitChar _ hmod]
      simp only [List.length_cons, pow_succ]
      calc n / 10 * (10 ^ acc.length * 10) + (n % 10 * 10 ^ acc.length + decodeDecimal acc)
          = (10 * (n / 10) + n % 10) * 10 ^ acc.length + decodeDecimal acc := by ring
        _ = n * 10 ^ acc.length + decodeDecimal acc := by rw [hdm]

theorem decodeDecimal_toDigits (n : Nat) :
    decodeDecimal (Nat.toDigits 10 n) = n := by
  rw [Nat.toDigits, decodeDecimal_toDigitsCore (n + 1) n [] (Nat.lt_succ_self n)]
  simp [decodeDecimal]

theorem natRepr_injective : Function.Injective Nat.repr := by
  intro a b h
  have hd : Nat.toDigits 10 a = Nat.toDigits 10 b := by
    have := congrArg String.data h
    simpa [Nat.repr, List.asString] using this
  calc a = decodeDecimal (Nat.toDigits 10 a) := (decodeDecimal_toDigits a).symm
    _ = decodeDecimal (Nat.toDigits 10 b) := by rw [hd]
    _ = b := decodeDecimal_toDigits b

theorem citationMarker_injective : Function.Injective citationMarker := by
  intro a b h
  apply natRepr_injective
  have hd := congrArg String.data h
  simp only [citationMarker] at hd
  have ha : ("[" ++ Nat.repr a ++ "]").data
      = '[' :: (Nat.repr a).data ++ [']'] := by
    simp [String.data_append]
  have hb : ("[" ++ Nat.repr b ++ "]").data
      = '[' :: (Nat.repr b).data ++ [']'] := by
    simp [String.data_append]
  rw [ha, hb] at hd
  have hdata : (Nat.repr a).data = (Nat.repr b).data := by
    have h1 := List.cons_injective hd
    exact List.append_cancel_right h1
  exact String.ext hdata

theorem citationsFrom_map_chunk_id (l : List RChunk) :
    ∀ i : Nat, (citationsFrom i l).map Citation.chunk_id = l.map RChunk.chunk_id := by
  induction l with
  | nil => intro i; rfl
  | cons c cs ih =>
    intro i
    simp only [citationsFrom, List.map_cons, ih, mkCitation]

theorem citationsFrom_map_relevance (l : List RChunk) :
    ∀ i : Nat, (citationsFrom i l).map Citation.relevance_score
      = l.map (fun c => 1 - c.distance.getD 0) := by
  induction l with
  | nil => intro i; rfl
  | cons c cs ih =>
    intro i
    simp only [citationsFrom, List.map_cons, ih, mkCitation]

theorem citationsFrom_length (l : List RChunk) :
    ∀ i : Nat, (citationsFrom i l).length = l.length := by
  induction l with
  | nil => intro i; rfl
  | cons c cs ih =>
    intro i
    simp only [citationsFrom, List.length_cons, ih]

theorem citationsFrom_map_marker (l : List RChunk) :
    ∀ i : Nat, (citationsFrom i l).map Citation.citation_id
      = (List.range l.length).map (fun j => citationMarker (i + 1 + j)) := by
  induction l with
  | nil => intro i; rfl
  | cons c cs ih =>
    intro i
    simp only [citationsFrom, List.map_cons, ih, mkCitation, List.length_cons,
      List.range_succ_eq_map, List.map_map]
    congr 1
    apply List.map_congr_left
    intro j _
    simp only [Function.comp_apply]
    congr 1
    omega

/-- **C8** (confirmed).  For every synthesis call over `n` chunks, markers
`[1]..[n]` are assigned in the order the chunk list was given, the
markers are pairwise distinct (each maps back to exactly one chunk, at
the same position), and the returned citations list has an entry for
*every* chunk — same length, chunk ids in the same order — each carrying
`relevance_score = 1 − distance`. -/
theorem citations_marker_roundtrip (chunks : List RChunk) :
    (generate_answer_citations chunks).length = chunks.length ∧
    (generate_answer_citations chunks).map Citation.citation_id
      = (List.range chunks.length).map (fun i => citationMarker (i + 1)) ∧
    ((generate_answer_citations chunks).map Citation.citation_id).Nodup ∧
    (generate_answer_citations chunks).map Citation.chunk_id
      = chunks.map RChunk.chunk_id ∧
    (generate_answer_citations chunks).map Citation.relevance_score
      = chunks.map (fun c => 1 - c.distance.getD 0) := by
  have hm : (generate_answer_citations chunks).map Citation.citation_id
      = (List.range chunks.length).map (fun i => citationMarker (i + 1)) := by
    rw [generate_answer_citations, citationsFrom_map_marker]
    apply List.map_congr_left
    intro j _
    congr 1
    omega
  refine ⟨citationsFrom_length chunks 0, hm, ?_, citationsFrom_map_chunk_id chunks 0,
    citationsFrom_map_relevance chunks 0⟩
  rw [hm]
  apply List.Nodup.map
  · intro a b hab
    have := citationMarker_injective hab
    omega
  · exact List.nodup_range _

/-! ### C10 — stream registry lifecycle -/

theorem isTerminal_completeQEvent : isTerminalEvent completeQEvent = true := by decide

theorem realtimeLoop_terminal_erase (reg : List String) (qid : String)
    (post : List StreamIn) :
    ∀ pre : List StreamIn, qid ∈ reg →
      (realtimeLoop reg qid (pre ++ .evt completeQEvent :: post)).2 = reg.erase qid := by
  intro pre hmem
  induction pre with
  | nil => simp [realtimeLoop, isTerminal_completeQEvent]
  | cons s pre ih =>
    cases s with
    | evt e =>
      by_cases hterm : isTerminalEvent e
      · simp [realtimeLoop, hterm]
      · simp [realtimeLoop, hterm, ih]
    | timeout => simp [realtimeLoop, hmem, ih]
    | disconnect => simp [realtimeLoop]

theorem realtimeLoop_disconnect_erase (reg : List String) (qid : String) :
    ∀ pre : List StreamIn, qid ∈ reg → pre.all keepsStreaming = true →
      (realtimeLoop reg qid (pre ++ [.disconnect])).2 = reg.erase qid := by
  intro pre hmem hall
  induction pre with
  | nil => simp [realtimeLoop]
  | cons s pre ih =>
    rw [List.all_cons, Bool.and_eq_true] at hall
    cases s with
    | evt e =>
      have hterm : isTerminalEvent e = false := by
        simpa [keepsStreaming] using hall.1
      simp [realtimeLoop, hterm, ih hall.2]
    | timeout => simp [realtimeLoop, hmem, ih hall.2]
    | disconnect => simp [keepsStreaming] at hall

theorem streamEventsLoop_disconnect_erase (reg : List String) (qid : String) :
    ∀ pre : List StreamIn, qid ∈ reg → pre.all keepsStreaming = true →
      (streamEventsLoop reg qid (pre ++ [.disconnect])).2 = reg.erase qid := by
  intro pre hmem hall
  induction pre with
  | nil => simp [streamEventsLoop]
  | cons s pre ih =>
    rw [List.all_cons, Bool.and_eq_true] at hall
    cases s with
    | evt e =>
      have hterm : isTerminalEvent e = false := by
        simpa [keepsStreaming] using hall.1
      simp [streamEventsLoop, hterm, ih hall.2]
    | timeout => simp [streamEventsLoop, hmem, ih hall.2]
    | disconnect => simp [keepsStreaming] at hall

theorem streamEventsLoop_terminal_keeps_registry (reg : List String) (qid : String)
    (post : List StreamIn) :
    ∀ pre : List StreamIn, qid ∈ reg → pre.all keepsStreaming = true →
      (streamEventsLoop reg qid (pre ++ .evt completeQEvent :: post)).2 = reg := by
  intro pre hmem hall
  induction pre with
  | nil => simp [streamEventsLoop, isTerminal_completeQEvent]
  | cons s pre ih =>
    rw [List.all_cons, Bool.and_eq_true] at hall
    cases s with
    | evt e =>
      have hterm : isTerminalEvent e = false := by
        simpa [keepsStreaming] using hall.1
      simp [streamEventsLoop, hterm, ih hall.2]
    | timeout => simp [streamEventsLoop, hmem, ih hall.2]
    | disconnect => simp [keepsStreaming] at hall

theorem realtimeLoop_terminal_absorbs (reg : List String) (qid : String)
    (post : List StreamIn) :
    ∀ pre : List StreamIn,
      realtimeLoop reg qid (pre ++ .evt completeQEvent :: post)
        = realtimeLoop reg qid (pre ++ [.evt completeQEvent]) := by
  intro pre
  induction pre with
  | nil => simp [realtimeLoop, isTerminal_completeQEvent]
  | cons s pre ih =>
    cases s with
    | evt e =>
      by_cases hterm : isTerminalEvent e
      · simp [realtimeLoop, hterm]
      · simp [realtimeLoop, hterm, ih]
    | timeout =>
      by_cases hmem : qid ∈ reg
      · simp [realtimeLoop, hmem, ih]
      · simp [realtimeLoop, hmem]
    | disconnect => simp [realtimeLoop]

theorem realtimeLoop_disconnect_absorbs (reg : List String) (qid : String)
    (post : List StreamIn) :
    ∀ pre : List StreamIn,
      realtimeLoop reg qid (pre ++ .disconnect :: post)
        = realtimeLoop reg qid (pre ++ [.disconnect]) := by
  intro pre
  induction pre with
  | nil => simp [realtimeLoop]
  | cons s pre ih =>
    cases s with
    | evt e =>
      by_cases hterm : isTerminalEvent e
      · simp [realtimeLoop, hterm]
      · simp [realtimeLoop, hterm, ih]
    | timeout =>
      by_cases hmem : qid ∈ reg
      · simp [realtimeLoop, hmem, ih]
      · simp [realtimeLoop, hmem]
    | disconnect => simp [realtimeLoop]

theorem streamEventsLoop_disconnect_absorbs (reg : List String) (qid : String)
    (post : List StreamIn) :
    ∀ pre : List StreamIn,
      streamEventsLoop reg qid (pre ++ .disconnect :: post)
        = streamEventsLoop reg qid (pre ++ [.disconnect]) := by
  intro pre
  induction pre with
  | nil => simp [streamEventsLoop]
  | cons s pre ih =>
    cases s with
    | evt e =>
      by_cases hterm : isTerminalEvent e
      · simp [streamEventsLoop, hterm]
      · simp [streamEventsLoop, hterm, ih]
    | timeout =>
      by_cases hmem : qid ∈ reg
      · simp [streamEventsLoop, hmem, ih]
      · simp [streamEventsLoop, hmem]
    | disconnect => simp [streamEventsLoop]

/-- **C10 — counterexample.**  A `stream_events` consumer with registry
`["q1"]` observes the terminal `complete` event; the generator ends, but
the registry still contains `"q1"` — the entry is *not* removed on the
terminal-event path (the deletion sits only in the `except GeneratorExit`
handler), falsifying the claim for `stream_events`. -/
theorem stream_registry_counterexample :
    (stream_events ["q1"] "q1" [.evt completeQEvent]).2 = ["q1"] ∧
    "q1" ∈ (stream_events ["q1"] "q1" [.evt completeQEvent]).2 := by
  decide

/-- **C10** (corrected).  For `realtime_stream_events` the registry entry
is removed both when the consumer observes a terminal event and when it
disconnects, and nothing — in particular no heartbeat — is delivered
after that point.  For `stream_events` the entry is removed only on
disconnect (with no later frames either); when the consumer observes a
terminal event the stream closes but the registry entry *remains*. -/
theorem stream_registry_lifecycle (reg : List String) (qid : String)
    (pre post : List StreamIn) (hmem : qid ∈ reg)
    (hpre : pre.all keepsStreaming = true) :
    (realtime_stream_events reg qid (pre ++ .evt completeQEvent :: post)).2
      = reg.erase qid ∧
    (realtime_stream_events reg qid (pre ++ .disconnect :: post)).2
      = reg.erase qid ∧
    (stream_events reg qid (pre ++ .disconnect :: post)).2 = reg.erase qid ∧
    (stream_events reg qid (pre ++ .evt completeQEvent :: post)).2 = reg ∧
    realtime_stream_events reg qid (pre ++ .evt completeQEvent :: post)
      = realtime_stream_events reg qid (pre ++ [.evt completeQEvent]) ∧
    realtime_stream_events reg qid (pre ++ .disconnect :: post)
      = realtime_stream_events reg qid (pre ++ [.disconnect]) ∧
    stream_events reg qid (pre ++ .disconnect :: post)
      = stream_events reg qid (pre ++ [.disconnect]) := by
  refine ⟨?_, ?_, ?_, ?_, ?_, ?_, ?_⟩
  · simp only [realtime_stream_events, if_pos hmem]
    exact realtimeLoop_terminal_erase reg qid post pre hmem
  · simp only [realtime_stream_events, if_pos hmem]
    rw [realtimeLoop_disconnect_absorbs]
    exact realtimeLoop_disconnect_erase reg qid pre hmem hpre
  · simp only [stream_events, if_pos hmem]
    rw [streamEventsLoop_disconnect_absorbs]
    exact streamEventsLoop_disconnect_erase reg qid pre hmem hpre
  · simp only [stream_events, if_pos hmem]
    exact streamEventsLoop_terminal_keeps_registry reg qid post pre hmem hpre
  · simp only [realtime_stream_events, if_pos hmem]
    rw [realtimeLoop_terminal_absorbs]
  · simp only [realtime_stream_events, if_pos hmem]
    rw [realtimeLoop_disconnect_absorbs]
  · simp only [stream_events, if_pos hmem]
    rw [streamEventsLoop_disconnect_absorbs]

/-- Witness for the amended C10 at a concrete trace: registry `["q1"]`,
two delivered frames before the terminal event (respectively before the
disconnect). -/
theorem stream_registry_lifecycle_witness :
    (realtime_stream_events ["q1"] "q1"
        ([.timeout, .evt ⟨"processing_update", "analyzing_query"⟩] ++
          .evt completeQEvent :: [.timeout])).2 = ["q1"].erase "q1" ∧
    (stream_events ["q1"] "q1"
        ([.timeout, .evt ⟨"processing_update", "analyzing_query"⟩] ++
          .evt completeQEvent :: [.timeout])).2 = ["q1"] :=
  ⟨(stream_registry_lifecycle ["q1"] "q1"
      [.timeout, .evt ⟨"processing_update", "analyzing_query"⟩] [.timeout]
      (by decide) (by decide)).1,
   (stream_registry_lifecycle ["q1"] "q1"
      [.timeout, .evt ⟨"processing_update", "analyzing_query"⟩] [.timeout]
      (by decide) (by decide)).2.2.2.1⟩

end DocIntel
